import Mathlib

/-
Shallow embedding of the two scraping pipelines of this repository
(scrape_books.py and scrape_hn.py).  Network fetch outcomes, DOM lookup
outcomes and the file system are modelled as explicit environments; the
control flow (retry loops, pagination, per-item processing, exception
handling) is translated from the source.  Calls to time.sleep are abstracted
to sleep events in an observable trace (the delay durations themselves are
real-time behaviour); every page/detail request and every record append is
likewise recorded as a trace event.
-/

namespace Scrape

/-- Python exceptions that can escape the scrape_books pipeline.  The only
uncaught exception reachable in the model is the ValueError raised by
float(price_str.replace(pound, "")) on an unparseable price string
(scrape_books.py line 44); the surrounding handlers catch only
requests.exceptions.RequestException and, for the category loop,
ConnectionError and AttributeError. -/
inductive PErr where
  | valueError
deriving DecidableEq

/-- Observable events of one scrape_books run: one event per HTTP request of a
catalogue page, one per HTTP request of a book detail page (category fetch),
one per time.sleep call, and one per record appended to all_books_data. -/
inductive Ev where
  | fetchPage (pageNum : Nat)
  | fetchCat
  | sleep
  | append
deriving DecidableEq

/-- Accumulated decimal value of a digit list (used to model Python float
parsing of the price strings). -/
def digitsVal (l : List Char) : Nat :=
  l.foldl (fun a c => a * 10 + (c.toNat - 48)) 0

/-- True when every character is an ASCII digit. -/
def allDigits (l : List Char) : Bool :=
  l.all (fun c => c.isDigit)

/-- Model of Python float() restricted to the shapes relevant here:
non-negative decimal literals such as "51", "51.77", "51." or ".77".
Returns none when float() would raise ValueError (for instance on text that
is not a number).  Exact rationals stand in for IEEE doubles; the prices on
the catalogue have two decimal places, for which the strict comparison with
the integer price limit agrees. -/
def parseDecimal (s : String) : Option Rat :=
  match s.toList.splitOn '.' with
  | [ip] =>
      if !ip.isEmpty && allDigits ip then some ((digitsVal ip : Rat)) else none
  | [ip, fp] =>
      if (!ip.isEmpty || !fp.isEmpty) && allDigits ip && allDigits fp then
        some ((digitsVal ip : Rat) + (digitsVal fp : Rat) / ((10 : Rat) ^ fp.length))
      else none
  | _ => none

/-- Model of price_str.replace(pound sign, ""): removes every pound-sign
character. -/
def stripPound (s : String) : String :=
  String.mk (s.toList.filter (fun c => c ≠ '£'))

/-- Model of float(price_str.replace(pound sign, "")) in scrape_books.py
line 44. -/
def parsePrice (s : String) : Option Rat :=
  parseDecimal (stripPound s)

/-- Base URL prefix of the catalogue (scrape_books.py line 19). -/
def base_url : String := "https://books.toscrape.com/catalogue/"

/-- One book entry as it appears on a catalogue page, together with the
environment's outcome for its detail-page (category) fetch: catFailures is
the number of attempts that fail (with ConnectionError or AttributeError)
before the first success; if catFailures is at least max_retries the
category loop exhausts its budget.  The structural lookups of title, price
string, image src and href on the summary page are the fields below. -/
structure BookItem where
  title : String
  priceStr : String
  imgSrc : String
  href : String
  catFailures : Nat
  category : String
deriving DecidableEq

/-- One catalogue page of the environment: fetchFailures is the number of
page-fetch attempts that fail (non-200 status or RequestException) before
the first 200 response; items are the article.product_pod entries parsed
from the page body.  Pages beyond the environment's list never return 200
(the catalogue 404s past its last page). -/
structure PageSpec where
  fetchFailures : Nat
  items : List BookItem
deriving DecidableEq

/-- One record of all_books_data (scrape_books.py lines 82-89).  The
categoria field holds the final value of the Python category variable,
which is initialised to None and assigned only on a successful detail
fetch. -/
structure BookRecord where
  titulo : String
  precio : Rat
  categoria : Option String
  urlImagen : String
deriving DecidableEq

/-- Category retry loop (scrape_books.py lines 52-74): the first component
is the final value of the category variable (None unless some attempt
succeeded), the second is true exactly when the for-else fired (all
attempts used without success), the third is the event trace.  Each failed
attempt performs one detail fetch and then one sleep (the sleep runs after
every failed attempt, the last included). -/
def catLoop (failures : Nat) (category : String) : Nat → Option String × Bool × List Ev
  | 0 => (none, true, [])
  | n + 1 =>
    match failures with
    | 0 => (some category, false, [Ev.fetchCat])
    | f + 1 =>
      match catLoop f category n with
      | (c, ex, t) => (c, ex, Ev.fetchCat :: Ev.sleep :: t)

/-- Trace of f failed category attempts, each a fetch followed by a sleep. -/
def catFailTrace : Nat → List Ev
  | 0 => []
  | k + 1 => Ev.fetchCat :: Ev.sleep :: catFailTrace k

/-- Trace of a category loop that fails f times and then succeeds. -/
def catSuccTrace (f : Nat) : List Ev := catFailTrace f ++ [Ev.fetchCat]

/-- Result of processing the item list of one page (the for-book loop,
scrape_books.py lines 41-93): records appended, updated books_scraped
count, event trace, and whether the target count was reached (the break at
line 93 fired). -/
structure ItemsOut where
  recs : List BookRecord
  count : Nat
  trace : List Ev
  reached : Bool
deriving DecidableEq

/-- Per-item loop of one page (scrape_books.py lines 41-93).  For each book:
parse the price (ValueError escapes uncaught), filter by price < limit,
resolve the category through its retry loop (exhaustion skips the item via
continue), append the record, increment the count, and stop as soon as the
count reaches numBooks. -/
def processBooks (numBooks : Nat) (limit : Rat) (mr : Nat) :
    List BookItem → Nat → Except PErr ItemsOut
  | [], count => Except.ok ⟨[], count, [], false⟩
  | it :: rest, count =>
    match parsePrice it.priceStr with
    | none => Except.error PErr.valueError
    | some price =>
      if price < limit then
        match catLoop it.catFailures it.category mr with
        | (catVar, exhausted, tc) =>
          if exhausted then
            match processBooks numBooks limit mr rest count with
            | Except.error e => Except.error e
            | Except.ok out => Except.ok ⟨out.recs, out.count, tc ++ out.trace, out.reached⟩
          else
            match catVar with
            | none =>
              -- unreachable: the loop broke, so the variable was assigned
              Except.ok ⟨[], count, tc, false⟩
            | some cat =>
              let record : BookRecord :=
                ⟨it.title, price, some cat, base_url ++ it.imgSrc⟩
              if numBooks ≤ count + 1 then
                Except.ok ⟨[record], count + 1, tc ++ [Ev.append], true⟩
              else
                match processBooks numBooks limit mr rest (count + 1) with
                | Except.error e => Except.error e
                | Except.ok out =>
                  Except.ok ⟨record :: out.recs, out.count,
                    tc ++ Ev.append :: out.trace, out.reached⟩
      else
        processBooks numBooks limit mr rest count

/-- Outcome of the page-fetch retry loop for one page. -/
inductive PageStep where
  | exhausted
  | emptyPage
  | processed (out : ItemsOut)
deriving DecidableEq

/-- Page-fetch retry loop (scrape_books.py lines 30-111).  Each failed
attempt records the request and the sleep that follows it (the sleep at
line 109 runs after every failed attempt, the last included).  On the first
200 response the body is parsed: an empty item list breaks out of the loop
(lines 37-39), otherwise the items are processed; exhaustion of the budget
corresponds to the for-else at line 112. -/
def pageLoop (numBooks : Nat) (limit : Rat) (mr : Nat) (failures : Nat)
    (items : List BookItem) (pageNum count : Nat) :
    Nat → Except PErr (PageStep × List Ev)
  | 0 => Except.ok (PageStep.exhausted, [])
  | n + 1 =>
    match failures with
    | 0 =>
      match items with
      | [] => Except.ok (PageStep.emptyPage, [Ev.fetchPage pageNum])
      | _ =>
        match processBooks numBooks limit mr items count with
        | Except.error e => Except.error e
        | Except.ok out =>
          Except.ok (PageStep.processed out, Ev.fetchPage pageNum :: out.trace)
    | f + 1 =>
      match pageLoop numBooks limit mr f items pageNum count n with
      | Except.error e => Except.error e
      | Except.ok (st, t) =>
        Except.ok (st, Ev.fetchPage pageNum :: Ev.sleep :: t)

/-- Trace of f wholly failed page-fetch attempts of page pageNum. -/
def attemptFailTrace (pageNum : Nat) : Nat → List Ev
  | 0 => []
  | k + 1 => Ev.fetchPage pageNum :: Ev.sleep :: attemptFailTrace pageNum k

/-- Exit state of the pagination loop: done when the while condition
became false (target reached), aborted when a page fetch exhausted its
retry budget (the break at line 116). -/
inductive BooksExit where
  | done
  | aborted
deriving DecidableEq

/-- Result of the pagination loop. -/
structure LoopOut where
  recs : List BookRecord
  trace : List Ev
  exit : BooksExit
deriving DecidableEq

/-- Pagination loop (scrape_books.py lines 27-118).  The while condition is
checked before each page; a page beyond the environment's list fails every
attempt (404), which exhausts the budget and aborts.  An empty page breaks
only the attempt loop, after which page_num is incremented and the while
loop continues with the next page.  When the item loop reports that the
target was reached, the next while check terminates the loop. -/
def booksLoop (numBooks : Nat) (limit : Rat) (mr : Nat) :
    List PageSpec → Nat → Nat → Except PErr LoopOut
  | [], pageNum, count =>
    if numBooks ≤ count then Except.ok ⟨[], [], BooksExit.done⟩
    else Except.ok ⟨[], attemptFailTrace pageNum mr, BooksExit.aborted⟩
  | p :: rest, pageNum, count =>
    if numBooks ≤ count then Except.ok ⟨[], [], BooksExit.done⟩
    else
      match pageLoop numBooks limit mr p.fetchFailures p.items pageNum count mr with
      | Except.error e => Except.error e
      | Except.ok (PageStep.exhausted, t) => Except.ok ⟨[], t, BooksExit.aborted⟩
      | Except.ok (PageStep.emptyPage, t) =>
        match booksLoop numBooks limit mr rest (pageNum + 1) count with
        | Except.error e => Except.error e
        | Except.ok out => Except.ok ⟨out.recs, t ++ out.trace, out.exit⟩
      | Except.ok (PageStep.processed o, t) =>
        match booksLoop numBooks limit mr rest (pageNum + 1) o.count with
        | Except.error e => Except.error e
        | Except.ok out => Except.ok ⟨o.recs ++ out.recs, t ++ out.trace, out.exit⟩

/-- Result of one scrape_books run: all_books_data, the exit state of the
pagination loop, the content of books.json after the run, and the event
trace. -/
structure BooksResult where
  records : List BookRecord
  exit : BooksExit
  file : List BookRecord
  trace : List Ev
deriving DecidableEq

/-- Entry point of the catalogue pipeline (scrape_books.py lines 13-129).
The environment is the page list, the prior content of books.json and
whether the final write succeeds (an IOError on the write is caught and
logged, leaving the prior content in place; a successful write opens the
file with mode "w" and replaces its content with exactly this run's
records).  Python defaults: num_books=50, price_limit=20, max_retries=3. -/
def scrape_books (pages : List PageSpec) (prevFile : List BookRecord)
    (writeOk : Bool) (num_books : Nat := 50) (price_limit : Rat := 20)
    (max_retries : Nat := 3) : Except PErr BooksResult :=
  match booksLoop num_books price_limit max_retries pages 1 0 with
  | Except.error e => Except.error e
  | Except.ok out =>
    Except.ok ⟨out.recs, out.exit, if writeOk then out.recs else prevFile, out.trace⟩

/-- Number of append events in a trace. -/
def appCount : List Ev → Nat
  | [] => 0
  | Ev.append :: rest => appCount rest + 1
  | _ :: rest => appCount rest

/-- Checks that every network request in the trace happens while fewer than
target records have been appended: the run never fetches a page or a detail
page once the requested count is reached.  The accumulator a is the number
of appends before the current position. -/
def fetchesBeforeFull (target : Nat) : Nat → List Ev → Bool
  | _, [] => true
  | a, Ev.append :: rest => fetchesBeforeFull target (a + 1) rest
  | a, Ev.sleep :: rest => fetchesBeforeFull target a rest
  | a, Ev.fetchPage _ :: rest => decide (a < target) && fetchesBeforeFull target a rest
  | a, Ev.fetchCat :: rest => decide (a < target) && fetchesBeforeFull target a rest

/-- True when the item would be collected: its price parses, is below the
limit, and its category fetch succeeds within the retry budget. -/
def qualifiesB (limit : Rat) (mr : Nat) (it : BookItem) : Bool :=
  match parsePrice it.priceStr with
  | some p => decide (p < limit) && decide (it.catFailures < mr)
  | none => false

/-- Number of qualifying items across the environment's pages. -/
def qualCount (limit : Rat) (mr : Nat) (pages : List PageSpec) : Nat :=
  (pages.map (fun p => p.items.countP (qualifiesB limit mr))).sum

/-- Retry constant of scrape_hn.py (line 21). -/
def MAX_RETRIES : Nat := 3

/-- Observable events of one scrape_hacker_news run: a WebDriver start
attempt, a navigation attempt (driver.get), a find_elements call for the
news rows, a time.sleep call, and a driver.quit call. -/
inductive HEv where
  | startAttempt
  | navAttempt
  | findRows
  | sleep
  | quit
deriving DecidableEq

/-- One tr.athing row of the rendered page, with the environment's outcomes
for its DOM lookups: anchor is the (text, href) of the title link when the
td.title span.titleline a lookup succeeds (none when it raises
NoSuchElementException), sibling tells whether the following-sibling tr
lookup succeeds, and scoreText is the text of the span.score element when
that lookup succeeds. -/
structure HNRow where
  anchor : Option (String × String)
  sibling : Bool
  scoreText : Option String
deriving DecidableEq

/-- One record of news_items (scrape_hn.py line 169). -/
structure HNRecord where
  title : String
  score : Int
  url : String
deriving DecidableEq

/-- Model of Python int() on a whitespace-free token: an optional minus sign
followed by at least one digit. -/
def parseIntPy (s : String) : Option Int :=
  match s.toList with
  | [] => none
  | '-' :: rest =>
    if !rest.isEmpty && allDigits rest then some (-(digitsVal rest : Int)) else none
  | l => if allDigits l then some ((digitsVal l : Int)) else none

/-- First whitespace-separated token of a string, modelling text.split()[0]:
none when the string holds no token, which raises IndexError. -/
def firstToken (s : String) : Option String :=
  match (s.toList.dropWhile (fun c => c.isWhitespace)).takeWhile
      (fun c => !c.isWhitespace) with
  | [] => none
  | tk => some (String.mk tk)

/-- Model of score_element.text.split()[0] followed by int() (scrape_hn.py
lines 158-159): none when the split of the text is empty (IndexError) or
the first token is not an integer (ValueError). -/
def parseScore (s : String) : Option Int :=
  match firstToken s with
  | none => none
  | some w => parseIntPy w

/-- Score of one row (scrape_hn.py lines 152-167): 0 when the span.score
element is missing (NoSuchElementException, logged at debug level) and 0
when the found text does not parse (ValueError or IndexError, logged as a
warning); otherwise the parsed value. -/
def rowScore (r : HNRow) : Int :=
  match r.scoreText with
  | none => 0
  | some s =>
    match parseScore s with
    | none => 0
    | some v => v

/-- Per-row extraction (scrape_hn.py lines 140-181).  The title-anchor
lookup and the following-sibling lookup sit in the outer try: if either
raises NoSuchElementException the handler at line 174 logs and skips the
row, so nothing is appended.  Only when both succeed is the record
appended, with the score resolved best-effort. -/
def processRow (r : HNRow) : Option HNRecord :=
  match r.anchor with
  | none => none
  | some (t, u) =>
    if r.sibling then some ⟨t, rowScore r, u⟩ else none

/-- Row loop of scrape_hacker_news (scrape_hn.py lines 140-181): appends one
record per row whose outer lookups succeed, in row order. -/
def processRows : List HNRow → List HNRecord
  | [] => []
  | r :: rest =>
    match processRow r with
    | some record => record :: processRows rest
    | none => processRows rest

/-- WebDriver start loop (scrape_hn.py lines 48-68): failures counts the
attempts that raise WebDriverException before the first success.  A failed
attempt sleeps only when further attempts remain (line 62); exhaustion of
the budget returns an empty result without any driver to release. -/
def startDriver : Nat → Nat → Bool × List HEv
  | _, 0 => (false, [])
  | 0, _ + 1 => (true, [HEv.startAttempt])
  | _ + 1, 1 => (false, [HEv.startAttempt])
  | f + 1, n + 2 =>
    match startDriver f (n + 1) with
    | (b, t) => (b, HEv.startAttempt :: HEv.sleep :: t)

/-- Navigation loop (scrape_hn.py lines 76-99): a successful driver.get is
followed by an unconditional sleep (line 85) before the loop breaks; a
failed attempt sleeps only when further attempts remain (line 92). -/
def navLoop : Nat → Nat → Bool × List HEv
  | _, 0 => (false, [])
  | 0, _ + 1 => (true, [HEv.navAttempt, HEv.sleep])
  | _ + 1, 1 => (false, [HEv.navAttempt])
  | f + 1, n + 2 =>
    match navLoop f (n + 1) with
    | (b, t) => (b, HEv.navAttempt :: HEv.sleep :: t)

/-- Outcome of one find_elements attempt for the news rows: either the call
returns a (possibly empty) row list, or it raises NoSuchElementException. -/
inductive RowsAttempt where
  | found (rows : List HNRow)
  | raised

/-- Row-location loop (scrape_hn.py lines 104-130).  A nonempty result
breaks the loop; an empty result logs and sleeps unconditionally, the last
attempt included (line 117); a raised NoSuchElementException sleeps only
when further attempts remain (line 123).  When every attempt yields empty
or the last attempt raises, the pipeline gives up on the rows (none). -/
def findRowsLoop : List RowsAttempt → Option (List HNRow) × List HEv
  | [] => (none, [])
  | RowsAttempt.found rows :: rest =>
    if rows.isEmpty then
      match findRowsLoop rest with
      | (r, t) => (r, HEv.findRows :: HEv.sleep :: t)
    else (some rows, [HEv.findRows])
  | RowsAttempt.raised :: rest =>
    if rest.isEmpty then (none, [HEv.findRows])
    else
      match findRowsLoop rest with
      | (r, t) => (r, HEv.findRows :: HEv.sleep :: t)

/-- Attempt outcomes presented to the row-location loop, one per loop
iteration. -/
def attemptSchedule (f : Nat → RowsAttempt) (n : Nat) : List RowsAttempt :=
  (List.range n).map f

/-- Environment of one scrape_hacker_news run: how many WebDriver starts
fail before one succeeds, how many navigation attempts fail before one
succeeds, the outcome of each find_elements attempt, and whether the final
json write succeeds. -/
structure HNEnv where
  startFailures : Nat
  navFailures : Nat
  rowAttempts : Nat → RowsAttempt
  writeOk : Bool

/-- Result of one scrape_hacker_news run: the returned list, the content of
the output file afterwards (none when it was never created), and the event
trace. -/
structure HNResult where
  returned : List HNRecord
  file : Option (List HNRecord)
  trace : List HEv
deriving DecidableEq

/-- Entry point of the listing pipeline (scrape_hn.py lines 25-204).  The
explicit driver.quit calls on the navigation-exhaustion path (line 98), the
row-location-exhaustion path (line 129) and the empty-rows path (line 137)
each run inside the try block, so the finally block (lines 200-204) quits
the driver a second time on those paths; the fully successful path quits
only in the finally block.  A write IOError is caught (line 191) and the
in-memory list is returned regardless; a successful write replaces the file
content with exactly this run's records. -/
def scrape_hacker_news (env : HNEnv) (prevFile : Option (List HNRecord)) : HNResult :=
  match startDriver env.startFailures MAX_RETRIES with
  | (false, t1) => ⟨[], prevFile, t1⟩
  | (true, t1) =>
    match navLoop env.navFailures MAX_RETRIES with
    | (false, t2) => ⟨[], prevFile, t1 ++ t2 ++ [HEv.quit, HEv.quit]⟩
    | (true, t2) =>
      match findRowsLoop (attemptSchedule env.rowAttempts MAX_RETRIES) with
      | (none, t3) => ⟨[], prevFile, t1 ++ t2 ++ t3 ++ [HEv.quit, HEv.quit]⟩
      | (some rows, t3) =>
        let items := processRows rows
        ⟨items, if env.writeOk then some items else prevFile,
          t1 ++ t2 ++ t3 ++ [HEv.quit]⟩

/-- Number of driver.quit calls in a trace. -/
def quitCount (t : List HEv) : Nat := t.count HEv.quit

/-- True when the row would be emitted: its title anchor and its
following-sibling lookup both succeed. -/
def extractB (r : HNRow) : Bool := r.anchor.isSome && r.sibling

/-- JSON values as produced by json.dump and read back by json.load.
Python ints and floats keep distinct lexical forms, hence distinct
constructors; object fields keep insertion order.  The textual layer
(printing and re-parsing the file bytes) belongs to the json standard
library and is modelled as the identity on these trees. -/
inductive Json where
  | null
  | str (s : String)
  | int (n : Int)
  | num (q : Rat)
  | arr (elems : List Json)
  | obj (fields : List (String × Json))

/-- Field names of a JSON object, in order. -/
def objKeys : Json → List String
  | Json.obj fields => fields.map Prod.fst
  | _ => []

/-- Serialization of one catalogue record (the dict built at
scrape_books.py lines 82-89): the keys are the exact Spanish field names,
including the embedded spaces of "URL de la imagen"; a None category would
serialize as null. -/
def bookToJson (r : BookRecord) : Json :=
  Json.obj
    [("Título", Json.str r.titulo),
     ("Precio", Json.num r.precio),
     ("Categoría", match r.categoria with
        | some c => Json.str c
        | none => Json.null),
     ("URL de la imagen", Json.str r.urlImagen)]

/-- Serialization of all_books_data as written to books.json. -/
def booksToJson (l : List BookRecord) : Json := Json.arr (l.map bookToJson)

/-- Deserialization of one catalogue record from the file. -/
def jsonToBook : Json → Option BookRecord
  | Json.obj
      [("Título", Json.str t), ("Precio", Json.num p),
       ("Categoría", c), ("URL de la imagen", Json.str u)] =>
    match c with
    | Json.str s => some ⟨t, p, some s, u⟩
    | Json.null => some ⟨t, p, none, u⟩
    | _ => none
  | _ => none

/-- Elementwise deserialization of a list of catalogue records. -/
def jsonToBookList : List Json → Option (List BookRecord)
  | [] => some []
  | j :: rest =>
    match jsonToBook j with
    | none => none
    | some r =>
      match jsonToBookList rest with
      | none => none
      | some rs => some (r :: rs)

/-- Deserialization of books.json. -/
def jsonToBooks : Json → Option (List BookRecord)
  | Json.arr l => jsonToBookList l
  | _ => none

/-- Serialization of one listing record (the dict built at scrape_hn.py
line 169). -/
def hnToJson (r : HNRecord) : Json :=
  Json.obj
    [("title", Json.str r.title), ("score", Json.int r.score),
     ("url", Json.str r.url)]

/-- Serialization of news_items as written to the output file. -/
def hnListToJson (l : List HNRecord) : Json := Json.arr (l.map hnToJson)

/-- Deserialization of one listing record from the file. -/
def jsonToHN : Json → Option HNRecord
  | Json.obj
      [("title", Json.str t), ("score", Json.int n), ("url", Json.str u)] =>
    some ⟨t, n, u⟩
  | _ => none

/-- Elementwise deserialization of a list of listing records. -/
def jsonToHNList : List Json → Option (List HNRecord)
  | [] => some []
  | j :: rest =>
    match jsonToHN j with
    | none => none
    | some r =>
      match jsonToHNList rest with
      | none => none
      | some rs => some (r :: rs)

/-- Deserialization of the listing output file. -/
def jsonToHNs : Json → Option (List HNRecord)
  | Json.arr l => jsonToHNList l
  | _ => none

theorem catLoop_exhaust (c : String) :
    ∀ n f, n ≤ f → catLoop f c n = (none, true, catFailTrace n) := by
  intro n
  induction n with
  | zero => intro f _; simp [catLoop, catFailTrace]
  | succ n ih =>
    intro f hf
    match f, hf with
    | g + 1, hf =>
      have hg : n ≤ g := Nat.le_of_succ_le_succ hf
      simp [catLoop, ih g hg, catFailTrace]

theorem catLoop_success (c : String) :
    ∀ n f, f < n → catLoop f c n = (some c, false, catSuccTrace f) := by
  intro n
  induction n with
  | zero => intro f hf; exact absurd hf (Nat.not_lt_zero f)
  | succ n ih =>
    intro f hf
    match f with
    | 0 => simp [catLoop, catSuccTrace, catFailTrace]
    | g + 1 =>
      have hg : g < n := Nat.lt_of_succ_lt_succ hf
      simp [catLoop, ih g hg, catSuccTrace, catFailTrace]

theorem pageLoop_exhaust (numBooks : Nat) (limit : Rat) (mr : Nat)
    (items : List BookItem) (pageNum count : Nat) :
    ∀ n f, n ≤ f →
      pageLoop numBooks limit mr f items pageNum count n =
        Except.ok (PageStep.exhausted, attemptFailTrace pageNum n) := by
  intro n
  induction n with
  | zero => intro f _; simp [pageLoop, attemptFailTrace]
  | succ n ih =>
    intro f hf
    match f, hf with
    | g + 1, hf =>
      have hg : n ≤ g := Nat.le_of_succ_le_succ hf
      simp [pageLoop, ih g hg, attemptFailTrace]

theorem pageLoop_success_empty (numBooks : Nat) (limit : Rat) (mr : Nat)
    (pageNum count : Nat) :
    ∀ n f, f < n →
      pageLoop numBooks limit mr f [] pageNum count n =
        Except.ok (PageStep.emptyPage, attemptFailTrace pageNum f ++ [Ev.fetchPage pageNum]) := by
  intro n
  induction n with
  | zero => intro f hf; exact absurd hf (Nat.not_lt_zero f)
  | succ n ih =>
    intro f hf
    match f with
    | 0 => simp [pageLoop, attemptFailTrace]
    | g + 1 =>
      have hg : g < n := Nat.lt_of_succ_lt_succ hf
      simp [pageLoop, ih g hg, attemptFailTrace]

theorem pageLoop_success_items (numBooks : Nat) (limit : Rat) (mr : Nat)
    (it : BookItem) (its : List BookItem) (pageNum count : Nat) :
    ∀ n f, f < n →
      pageLoop numBooks limit mr f (it :: its) pageNum count n =
        match processBooks numBooks limit mr (it :: its) count with
        | Except.error e => Except.error e
        | Except.ok out =>
          Except.ok (PageStep.processed out,
            attemptFailTrace pageNum f ++ Ev.fetchPage pageNum :: out.trace) := by
  intro n
  induction n with
  | zero => intro f hf; exact absurd hf (Nat.not_lt_zero f)
  | succ n ih =>
    intro f hf
    match f with
    | 0 =>
      cases hpb : processBooks numBooks limit mr (it :: its) count with
      | error e => simp [pageLoop, hpb, attemptFailTrace]
      | ok out => simp [pageLoop, hpb, attemptFailTrace]
    | g + 1 =>
      have hg : g < n := Nat.lt_of_succ_lt_succ hf
      cases hpb : processBooks numBooks limit mr (it :: its) count with
      | error e => simp [pageLoop, ih g hg, hpb, attemptFailTrace]
      | ok out => simp [pageLoop, ih g hg, hpb, attemptFailTrace]

theorem appCount_append (l₁ l₂ : List Ev) :
    appCount (l₁ ++ l₂) = appCount l₁ + appCount l₂ := by
  induction l₁ with
  | nil => simp [appCount]
  | cons e t ih => cases e <;> simp [appCount, ih, Nat.add_right_comm]

theorem fetchesBeforeFull_append (target : Nat) (l₁ l₂ : List Ev) :
    ∀ a, fetchesBeforeFull target a (l₁ ++ l₂) =
      (fetchesBeforeFull target a l₁ &&
        fetchesBeforeFull target (a + appCount l₁) l₂) := by
  induction l₁ with
  | nil => intro a; simp [fetchesBeforeFull, appCount]
  | cons e t ih =>
    intro a
    cases e <;>
      simp [fetchesBeforeFull, appCount, ih, Bool.and_assoc, Nat.add_assoc,
        Nat.add_comm 1]

theorem appCount_catFailTrace (f : Nat) : appCount (catFailTrace f) = 0 := by
  induction f with
  | zero => rfl
  | succ f ih => simp [catFailTrace, appCount, ih]

theorem appCount_catSuccTrace (f : Nat) : appCount (catSuccTrace f) = 0 := by
  simp [catSuccTrace, appCount_append, appCount_catFailTrace, appCount]

theorem appCount_attemptFailTrace (pn f : Nat) :
    appCount (attemptFailTrace pn f) = 0 := by
  induction f with
  | zero => rfl
  | succ f ih => simp [attemptFailTrace, appCount, ih]

theorem fb_catFailTrace (target a f : Nat) (h : a < target) :
    fetchesBeforeFull target a (catFailTrace f) = true := by
  induction f with
  | zero => rfl
  | succ f ih => simp [catFailTrace, fetchesBeforeFull, ih, h]

theorem fb_catSuccTrace (target a f : Nat) (h : a < target) :
    fetchesBeforeFull target a (catSuccTrace f) = true := by
  simp [catSuccTrace, fetchesBeforeFull_append, fb_catFailTrace target a f h,
    appCount_catFailTrace, fetchesBeforeFull, h]

theorem fb_attemptFailTrace (target a pn f : Nat) (h : a < target) :
    fetchesBeforeFull target a (attemptFailTrace pn f) = true := by
  induction f with
  | zero => rfl
  | succ f ih => simp [attemptFailTrace, fetchesBeforeFull, ih, h]

theorem jsonToBook_bookToJson (r : BookRecord) :
    jsonToBook (bookToJson r) = some r := by
  obtain ⟨t, p, c, u⟩ := r
  cases c <;> rfl

theorem jsonToBookList_map (l : List BookRecord) :
    jsonToBookList (l.map bookToJson) = some l := by
  induction l with
  | nil => rfl
  | cons r rest ih =>
    simp [jsonToBookList, jsonToBook_bookToJson, ih]

theorem jsonToHN_hnToJson (r : HNRecord) : jsonToHN (hnToJson r) = some r := by
  obtain ⟨t, n, u⟩ := r
  rfl

theorem jsonToHNList_map (l : List HNRecord) :
    jsonToHNList (l.map hnToJson) = some l := by
  induction l with
  | nil => rfl
  | cons r rest ih =>
    simp [jsonToHNList, jsonToHN_hnToJson, ih]

theorem startDriver_success (s : Nat) (hs : s < MAX_RETRIES) :
    (startDriver s MAX_RETRIES).1 = true ∧
      quitCount (startDriver s MAX_RETRIES).2 = 0 := by
  have h3 : s = 0 ∨ s = 1 ∨ s = 2 := by
    have : s < 3 := hs
    omega
  rcases h3 with rfl | rfl | rfl <;> exact ⟨rfl, rfl⟩

theorem startDriver_exhaust (s : Nat) (hs : MAX_RETRIES ≤ s) :
    startDriver s MAX_RETRIES =
      (false, [HEv.startAttempt, HEv.sleep, HEv.startAttempt, HEv.sleep,
        HEv.startAttempt]) := by
  obtain ⟨g, rfl⟩ : ∃ g, s = g + 3 := ⟨s - 3, by have : 3 ≤ s := hs; omega⟩
  rfl

theorem navLoop_success (n : Nat) (hn : n < MAX_RETRIES) :
    (navLoop n MAX_RETRIES).1 = true ∧
      quitCount (navLoop n MAX_RETRIES).2 = 0 := by
  have h3 : n = 0 ∨ n = 1 ∨ n = 2 := by
    have : n < 3 := hn
    omega
  rcases h3 with rfl | rfl | rfl <;> exact ⟨rfl, rfl⟩

theorem navLoop_exhaust (n : Nat) (hn : MAX_RETRIES ≤ n) :
    navLoop n MAX_RETRIES =
      (false, [HEv.navAttempt, HEv.sleep, HEv.navAttempt, HEv.sleep,
        HEv.navAttempt]) := by
  obtain ⟨g, rfl⟩ : ∃ g, n = g + 3 := ⟨n - 3, by have : 3 ≤ n := hn; omega⟩
  rfl

theorem attemptSchedule_three (f : Nat → RowsAttempt) :
    attemptSchedule f MAX_RETRIES = [f 0, f 1, f 2] := rfl

theorem findRowsLoop_first (f : Nat → RowsAttempt) (rows : List HNRow)
    (h0 : f 0 = RowsAttempt.found rows) (hr : rows ≠ []) :
    findRowsLoop (attemptSchedule f MAX_RETRIES) = (some rows, [HEv.findRows]) := by
  rw [attemptSchedule_three, h0]
  simp [findRowsLoop, List.isEmpty_iff, hr]

theorem processRow_isSome (r : HNRow) :
    (processRow r).isSome = extractB r := by
  obtain ⟨a, sib, sc⟩ := r
  cases a <;> cases sib <;> simp [processRow, extractB]

theorem processRows_length (rows : List HNRow) :
    (processRows rows).length = rows.countP extractB := by
  induction rows with
  | nil => rfl
  | cons r rest ih =>
    have hs := processRow_isSome r
    cases hp : processRow r <;>
      simp [processRows, hp, List.countP_cons, ih] <;>
      simp [hp, Option.isSome] at hs <;>
      simp [hs.symm]

theorem qualifiesB_true (lim : Rat) (mr : Nat) (it : BookItem) (price : Rat)
    (hp : parsePrice it.priceStr = some price) (hlt : price < lim)
    (hcf : it.catFailures < mr) : qualifiesB lim mr it = true := by
  simp [qualifiesB, hp, hlt, hcf]

theorem qualifiesB_false_price (lim : Rat) (mr : Nat) (it : BookItem) (price : Rat)
    (hp : parsePrice it.priceStr = some price) (hlt : ¬ price < lim) :
    qualifiesB lim mr it = false := by
  simp [qualifiesB, hp, hlt]

theorem qualifiesB_false_cat (lim : Rat) (mr : Nat) (it : BookItem)
    (hcf : ¬ it.catFailures < mr) : qualifiesB lim mr it = false := by
  cases hp : parsePrice it.priceStr <;> simp [qualifiesB, hp, hcf]

theorem processBooks_spec (nb : Nat) (lim : Rat) (mr : Nat) :
    ∀ (items : List BookItem) (count : Nat),
      (∀ it ∈ items, (parsePrice it.priceStr).isSome = true) →
      count < nb →
      ∃ out, processBooks nb lim mr items count = Except.ok out ∧
        out.count = count + out.recs.length ∧
        out.recs.length = min (items.countP (qualifiesB lim mr)) (nb - count) ∧
        (∀ r ∈ out.recs, r.precio < lim ∧ r.categoria.isSome = true) ∧
        appCount out.trace = out.recs.length ∧
        fetchesBeforeFull nb count out.trace = true ∧
        (out.reached = true ↔ nb ≤ count + out.recs.length) := by
  intro items
  induction items with
  | nil =>
    intro count _ hc
    refine ⟨⟨[], count, [], false⟩, rfl, by simp, by simp, by simp, rfl, rfl, ?_⟩
    simp
    omega
  | cons it rest ih =>
    intro count hparse hc
    have hit : (parsePrice it.priceStr).isSome = true := hparse it (by simp)
    obtain ⟨price, hp⟩ := Option.isSome_iff_exists.mp hit
    have hrest : ∀ x ∈ rest, (parsePrice x.priceStr).isSome = true :=
      fun x hx => hparse x (by simp [hx])
    by_cases hlt : price < lim
    · by_cases hcf : it.catFailures < mr
      · have hcl := catLoop_success it.category mr it.catFailures hcf
        have hqt := qualifiesB_true lim mr it price hp hlt hcf
        by_cases hreach : nb ≤ count + 1
        · refine ⟨⟨[⟨it.title, price, some it.category, base_url ++ it.imgSrc⟩],
            count + 1, catSuccTrace it.catFailures ++ [Ev.append], true⟩,
            ?_, by simp, ?_, ?_, ?_, ?_, ?_⟩
          · simp [processBooks, hp, hlt, hcl, hreach]
          · simp [List.countP_cons, hqt]
            omega
          · intro r hr
            simp at hr
            subst hr
            exact ⟨hlt, rfl⟩
          · simp [appCount_append, appCount_catSuccTrace, appCount]
          · simp [fetchesBeforeFull_append, fb_catSuccTrace nb count it.catFailures hc,
              appCount_catSuccTrace, fetchesBeforeFull]
          · simp
            omega
        · obtain ⟨out, hout, hcnt, hlen, hrec, happ, hfb, hrch⟩ :=
            ih (count + 1) hrest (by omega)
          refine ⟨⟨⟨it.title, price, some it.category, base_url ++ it.imgSrc⟩ :: out.recs,
            out.count, catSuccTrace it.catFailures ++ Ev.append :: out.trace, out.reached⟩,
            ?_, ?_, ?_, ?_, ?_, ?_, ?_⟩
          · simp [processBooks, hp, hlt, hcl, hreach, hout]
          · simp
            omega
          · simp [List.countP_cons, hqt, hlen]
            omega
          · intro r hr
            simp at hr
            rcases hr with rfl | hr
            · exact ⟨hlt, rfl⟩
            · exact hrec r hr
          · simp [appCount_append, appCount_catSuccTrace, appCount, happ]
          · have h2 : fetchesBeforeFull nb count (Ev.append :: out.trace) = true := by
              simp [fetchesBeforeFull, hfb]
            simp [fetchesBeforeFull_append, fb_catSuccTrace nb count it.catFailures hc,
              appCount_catSuccTrace, h2]
          · simp [hrch]
            omega
      · have hcl := catLoop_exhaust it.category mr it.catFailures (by omega)
        have hqf := qualifiesB_false_cat lim mr it hcf
        obtain ⟨out, hout, hcnt, hlen, hrec, happ, hfb, hrch⟩ := ih count hrest hc
        refine ⟨⟨out.recs, out.count, catFailTrace mr ++ out.trace, out.reached⟩,
          ?_, by simpa using hcnt, ?_, by simpa using hrec, ?_, ?_, by simpa using hrch⟩
        · simp [processBooks, hp, hlt, hcl, hout]
        · simp [List.countP_cons, hqf, hlen]
        · simp [appCount_append, appCount_catFailTrace, happ]
        · simp [fetchesBeforeFull_append, fb_catFailTrace nb count mr hc,
            appCount_catFailTrace, hfb]
    · have hqf := qualifiesB_false_price lim mr it price hp hlt
      obtain ⟨out, hout, hcnt, hlen, hrec, happ, hfb, hrch⟩ := ih count hrest hc
      refine ⟨out, ?_, hcnt, ?_, hrec, happ, hfb, hrch⟩
      · simp [processBooks, hp, hlt, hout]
      · simp [List.countP_cons, hqf, hlen]

theorem processBooks_categoria (nb : Nat) (lim : Rat) (mr : Nat) :
    ∀ (items : List BookItem) (count : Nat) (out : ItemsOut),
      processBooks nb lim mr items count = Except.ok out →
      ∀ r ∈ out.recs, r.categoria.isSome = true := by
  intro items
  induction items with
  | nil =>
    intro count out h r hr
    simp only [processBooks] at h
    cases h
    simp at hr
  | cons it rest ih =>
    intro count out h r hr
    cases hp : parsePrice it.priceStr with
    | none => simp [processBooks, hp] at h
    | some price =>
      by_cases hlt : price < lim
      · by_cases hcf : it.catFailures < mr
        · have hcl := catLoop_success it.category mr it.catFailures hcf
          by_cases hreach : nb ≤ count + 1
          · simp [processBooks, hp, hlt, hcl, hreach] at h
            subst h
            simp at hr
            subst hr
            rfl
          · simp [processBooks, hp, hlt, hcl, hreach] at h
            cases hout : processBooks nb lim mr rest (count + 1) with
            | error e => rw [hout] at h; cases h
            | ok o =>
              rw [hout] at h
              simp at h
              subst h
              simp at hr
              rcases hr with rfl | hr
              · rfl
              · exact ih (count + 1) o hout r hr
        · have hcl := catLoop_exhaust it.category mr it.catFailures (by omega)
          simp [processBooks, hp, hlt, hcl] at h
          cases hout : processBooks nb lim mr rest count with
          | error e => rw [hout] at h; cases h
          | ok o =>
            rw [hout] at h
            simp at h
            subst h
            simp at hr
            exact ih count o hout r hr
      · simp [processBooks, hp, hlt] at h
        exact ih count out h r hr

theorem pageLoop_processed (nb : Nat) (lim : Rat) (mr : Nat) :
    ∀ (n f : Nat) (items : List BookItem) (pageNum count : Nat) (out : ItemsOut) (t : List Ev),
      pageLoop nb lim mr f items pageNum count n = Except.ok (PageStep.processed out, t) →
      processBooks nb lim mr items count = Except.ok out := by
  intro n
  induction n with
  | zero =>
    intro f items pageNum count out t h
    simp [pageLoop] at h
  | succ n ih =>
    intro f items pageNum count out t h
    cases f with
    | zero =>
      cases items with
      | nil => simp [pageLoop] at h
      | cons it its =>
        cases hpb : processBooks nb lim mr (it :: its) count with
        | error e => simp [pageLoop, hpb] at h
        | ok o =>
          simp [pageLoop, hpb] at h
          rw [h.1]
    | succ g =>
      cases hpl : pageLoop nb lim mr g items pageNum count n with
      | error e => simp [pageLoop, hpl] at h
      | ok st =>
        obtain ⟨st, tt⟩ := st
        simp [pageLoop, hpl] at h
        rcases h with ⟨h1, h2⟩
        subst h1
        exact ih g items pageNum count out tt hpl

theorem booksLoop_categoria (nb : Nat) (lim : Rat) (mr : Nat) :
    ∀ (pages : List PageSpec) (pageNum count : Nat) (out : LoopOut),
      booksLoop nb lim mr pages pageNum count = Except.ok out →
      ∀ r ∈ out.recs, r.categoria.isSome = true := by
  intro pages
  induction pages with
  | nil =>
    intro pageNum count out h r hr
    by_cases hc : nb ≤ count <;> simp [booksLoop, hc] at h <;> subst h <;> simp at hr
  | cons p rest ih =>
    intro pageNum count out h r hr
    by_cases hc : nb ≤ count
    · simp [booksLoop, hc] at h
      subst h
      simp at hr
    · cases hpl : pageLoop nb lim mr p.fetchFailures p.items pageNum count mr with
      | error e => simp [booksLoop, hc, hpl] at h
      | ok st =>
        obtain ⟨st, t⟩ := st
        cases st with
        | exhausted =>
          simp [booksLoop, hc, hpl] at h
          subst h
          simp at hr
        | emptyPage =>
          cases hbl : booksLoop nb lim mr rest (pageNum + 1) count with
          | error e => simp [booksLoop, hc, hpl, hbl] at h
          | ok o =>
            simp [booksLoop, hc, hpl, hbl] at h
            subst h
            simp at hr
            exact ih (pageNum + 1) count o hbl r hr
        | processed po =>
          have hpb := pageLoop_processed nb lim mr mr p.fetchFailures p.items
            pageNum count po t hpl
          cases hbl : booksLoop nb lim mr rest (pageNum + 1) po.count with
          | error e => simp [booksLoop, hc, hpl, hbl] at h
          | ok o =>
            simp [booksLoop, hc, hpl, hbl] at h
            subst h
            simp at hr
            rcases hr with hr | hr
            · exact processBooks_categoria nb lim mr p.items count po hpb r hr
            · exact ih (pageNum + 1) po.count o hbl r hr

theorem booksLoop_ok (nb : Nat) (lim : Rat) (mr : Nat) :
    ∀ (pages : List PageSpec) (pageNum count : Nat),
      (∀ p ∈ pages, ∀ it ∈ p.items, (parsePrice it.priceStr).isSome = true) →
      ∃ out, booksLoop nb lim mr pages pageNum count = Except.ok out := by
  intro pages
  induction pages with
  | nil =>
    intro pageNum count _
    by_cases hc : nb ≤ count
    · exact ⟨⟨[], [], BooksExit.done⟩, by simp [booksLoop, hc]⟩
    · exact ⟨⟨[], attemptFailTrace pageNum mr, BooksExit.aborted⟩,
        by simp [booksLoop, hc]⟩
  | cons p rest ih =>
    intro pageNum count hparse
    have hpr : ∀ x ∈ rest, ∀ it ∈ x.items, (parsePrice it.priceStr).isSome = true :=
      fun x hx => hparse x (by simp [hx])
    by_cases hc : nb ≤ count
    · exact ⟨⟨[], [], BooksExit.done⟩, by simp [booksLoop, hc]⟩
    · by_cases hmr : p.fetchFailures < mr
      · cases hitems : p.items with
        | nil =>
          have hpl := pageLoop_success_empty nb lim mr pageNum count mr
            p.fetchFailures hmr
          obtain ⟨o, ho⟩ := ih (pageNum + 1) count hpr
          refine ⟨⟨o.recs, (attemptFailTrace pageNum p.fetchFailures ++ [Ev.fetchPage pageNum]) ++ o.trace, o.exit⟩, ?_⟩
          simp only [booksLoop, hitems] at hpl ⊢
          simp [hc, hpl, ho]
        | cons it its =>
          obtain ⟨po, hpo, _, _, _, _, _, _⟩ :=
            processBooks_spec nb lim mr p.items count (hparse p (by simp)) (by omega)
          have hpl := pageLoop_success_items nb lim mr it its pageNum count mr
            p.fetchFailures hmr
          rw [hitems] at hpo
          rw [hpo] at hpl
          obtain ⟨o, ho⟩ := ih (pageNum + 1) po.count hpr
          refine ⟨⟨po.recs ++ o.recs,
            (attemptFailTrace pageNum p.fetchFailures ++ Ev.fetchPage pageNum :: po.trace) ++ o.trace,
            o.exit⟩, ?_⟩
          simp only [booksLoop, hitems] at hpl ⊢
          simp [hc, hpl, ho]
      · have hpl := pageLoop_exhaust nb lim mr p.items pageNum count mr
          p.fetchFailures (by omega)
        exact ⟨⟨[], attemptFailTrace pageNum mr, BooksExit.aborted⟩,
          by simp [booksLoop, hc, hpl]⟩

theorem booksLoop_spec (nb : Nat) (lim : Rat) (mr : Nat) :
    ∀ (pages : List PageSpec) (pageNum count : Nat),
      (∀ p ∈ pages, p.fetchFailures < mr) →
      (∀ p ∈ pages, ∀ it ∈ p.items, (parsePrice it.priceStr).isSome = true) →
      count ≤ nb →
      nb ≤ count + qualCount lim mr pages →
      ∃ out, booksLoop nb lim mr pages pageNum count = Except.ok out ∧
        out.exit = BooksExit.done ∧
        count + out.recs.length = nb ∧
        (∀ r ∈ out.recs, r.precio < lim ∧ r.categoria.isSome = true) ∧
        fetchesBeforeFull nb count out.trace = true := by
  intro pages
  induction pages with
  | nil =>
    intro pageNum count _ _ hle hq
    have heq : nb ≤ count := by simpa [qualCount] using hq
    refine ⟨⟨[], [], BooksExit.done⟩, ?_, rfl, by simp; omega, by simp, rfl⟩
    simp [booksLoop, heq]
  | cons p rest ih =>
    intro pageNum count hf hparse hle hq
    have hfp : p.fetchFailures < mr := hf p (by simp)
    have hfr : ∀ x ∈ rest, x.fetchFailures < mr := fun x hx => hf x (by simp [hx])
    have hpr : ∀ x ∈ rest, ∀ it ∈ x.items, (parsePrice it.priceStr).isSome = true :=
      fun x hx => hparse x (by simp [hx])
    by_cases hc : nb ≤ count
    · refine ⟨⟨[], [], BooksExit.done⟩, ?_, rfl, by simp; omega, by simp, rfl⟩
      simp [booksLoop, hc]
    · have hcc : count < nb := by omega
      cases hitems : p.items with
      | nil =>
        have hpl := pageLoop_success_empty nb lim mr pageNum count mr
          p.fetchFailures hfp
        have hq2 : nb ≤ count + qualCount lim mr rest := by
          simpa [qualCount, hitems] using hq
        obtain ⟨out, hout, hexit, hcnt, hrec, hfb⟩ :=
          ih (pageNum + 1) count hfr hpr hle hq2
        refine ⟨⟨out.recs, (attemptFailTrace pageNum p.fetchFailures ++ [Ev.fetchPage pageNum]) ++ out.trace,
          out.exit⟩, ?_, by simpa using hexit, by simpa using hcnt, by simpa using hrec, ?_⟩
        · simp only [booksLoop, hitems] at hpl ⊢
          simp [hc, hpl, hout]
        · have h2 : fetchesBeforeFull nb count (Ev.fetchPage pageNum :: out.trace) = true := by
            simp [fetchesBeforeFull, hcc, hfb]
          simp [fetchesBeforeFull_append, appCount_append, appCount_attemptFailTrace,
            appCount, fb_attemptFailTrace nb count pageNum _ hcc, h2]
      | cons it its =>
        obtain ⟨po, hpo, hpcnt, hplen, hprec, hpapp, hpfb, hprch⟩ :=
          processBooks_spec nb lim mr p.items count (hparse p (by simp)) hcc
        have hpl := pageLoop_success_items nb lim mr it its pageNum count mr
          p.fetchFailures hfp
        rw [hitems] at hpo
        rw [hpo] at hpl
        have hcnt2 : (p.items.countP (qualifiesB lim mr)) = ((it :: its).countP (qualifiesB lim mr)) := by
          rw [hitems]
        have hq3 : nb ≤ po.count + qualCount lim mr rest := by
          have : qualCount lim mr (p :: rest) =
              p.items.countP (qualifiesB lim mr) + qualCount lim mr rest := by
            simp [qualCount]
          rw [this] at hq
          omega
        obtain ⟨out, hout, hexit, hcnt, hrec, hfb⟩ :=
          ih (pageNum + 1) po.count hfr hpr (by omega) hq3
        refine ⟨⟨po.recs ++ out.recs,
          (attemptFailTrace pageNum p.fetchFailures ++ Ev.fetchPage pageNum :: po.trace) ++ out.trace,
          out.exit⟩, ?_, by simpa using hexit, ?_, ?_, ?_⟩
        · simp only [booksLoop, hitems] at hpl ⊢
          simp [hc, hpl, hout]
        · simp
          omega
        · intro r hr
          simp at hr
          rcases hr with hr | hr
          · exact hprec r hr
          · exact hrec r hr
        · have h1 : fetchesBeforeFull nb count
              (attemptFailTrace pageNum p.fetchFailures ++ Ev.fetchPage pageNum :: po.trace) = true := by
            have h2 : fetchesBeforeFull nb count (Ev.fetchPage pageNum :: po.trace) = true := by
              simp [fetchesBeforeFull, hcc, hpfb]
            simp [fetchesBeforeFull_append, fb_attemptFailTrace nb count pageNum _ hcc,
              appCount_attemptFailTrace, h2]
          have ha : appCount (attemptFailTrace pageNum p.fetchFailures ++
              Ev.fetchPage pageNum :: po.trace) = po.recs.length := by
            simp [appCount_append, appCount_attemptFailTrace, appCount, hpapp]
          rw [fetchesBeforeFull_append, h1, ha]
          simp only [Bool.true_and]
          rw [← hpcnt]
          exact hfb

theorem count_sleep_catFailTrace (f : Nat) :
    (catFailTrace f).count Ev.sleep = f := by
  induction f with
  | zero => rfl
  | succ f ih => simp [catFailTrace, List.count_cons, ih]

theorem count_sleep_attemptFailTrace (pn f : Nat) :
    (attemptFailTrace pn f).count Ev.sleep = f := by
  induction f with
  | zero => rfl
  | succ f ih => simp [attemptFailTrace, List.count_cons, ih]

/-- C1: for every target count num_books that does not exceed the number of
available qualifying items (price strictly below price_limit and category
resolvable within the retry budget), and with every page reachable and
every price string parseable, scrape_books collects and persists exactly
num_books records, each with Precio strictly below price_limit, and no page
or detail fetch of the run happens once the requested count has been
reached (the run stops mid-page and fetches no further page). -/
theorem books_target_exact (pages : List PageSpec) (prevFile : List BookRecord)
    (nb : Nat) (lim : Rat) (mr : Nat)
    (hf : ∀ p ∈ pages, p.fetchFailures < mr)
    (hp : ∀ p ∈ pages, ∀ it ∈ p.items, (parsePrice it.priceStr).isSome = true)
    (ht : nb ≤ qualCount lim mr pages) :
    ∃ res, scrape_books pages prevFile true nb lim mr = Except.ok res ∧
      res.records.length = nb ∧
      res.file = res.records ∧
      (∀ r ∈ res.records, r.precio < lim) ∧
      fetchesBeforeFull nb 0 res.trace = true := by
  obtain ⟨out, hout, _, hcnt, hrec, hfb⟩ :=
    booksLoop_spec nb lim mr pages 1 0 hf hp (Nat.zero_le nb) (by omega)
  refine ⟨⟨out.recs, out.exit, out.recs, out.trace⟩, ?_, ?_, rfl,
    fun r hr => (hrec r hr).1, hfb⟩
  · simp [scrape_books, hout]
  · show out.recs.length = nb
    omega

/-- C1 witness: a single-page environment with one qualifying item and
target count 1. -/
theorem books_target_exact_witness :
    ∃ res, scrape_books [⟨0, [⟨"T", "£5", "i.jpg", "b.html", 0, "Poetry"⟩]⟩]
        [] true 1 20 3 = Except.ok res ∧
      res.records.length = 1 ∧
      res.file = res.records ∧
      (∀ r ∈ res.records, r.precio < 20) ∧
      fetchesBeforeFull 1 0 res.trace = true :=
  books_target_exact [⟨0, [⟨"T", "£5", "i.jpg", "b.html", 0, "Poetry"⟩]⟩]
    [] 1 20 3 (by decide) (by decide) (by decide)

/-- C2 counterexample: a run that locates exactly one row whose title-anchor
lookup fails returns an empty sequence — the row is dropped, not emitted
with title and url defaulted to the sentinel, so the output length is 0,
not the row count 1. -/
theorem hn_row_dropped_cex :
    (scrape_hacker_news
        ⟨0, 0, fun _ => RowsAttempt.found [⟨none, true, none⟩], true⟩
        none).returned = [] ∧
    (findRowsLoop (attemptSchedule
        (fun _ => RowsAttempt.found [⟨none, true, none⟩]) MAX_RETRIES)).1 =
      some [⟨none, true, none⟩] := ⟨rfl, rfl⟩

/-- C2 (amended): the output length equals the number of located rows whose
title-anchor and following-sibling lookups both succeed; a row whose
span.score element is missing or whose score text does not parse is still
emitted with score 0; a row whose title-anchor or following-sibling lookup
fails is skipped and contributes nothing. -/
theorem hn_rows_policy :
    (∀ rows : List HNRow, (processRows rows).length = rows.countP extractB) ∧
    (∀ t u : String, processRow ⟨some (t, u), true, none⟩ = some ⟨t, 0, u⟩) ∧
    (∀ t u s : String, parseScore s = none →
      processRow ⟨some (t, u), true, some s⟩ = some ⟨t, 0, u⟩) ∧
    (∀ r : HNRow, r.anchor = none ∨ r.sibling = false → processRow r = none) := by
  refine ⟨processRows_length, ?_, ?_, ?_⟩
  · intro t u
    simp [processRow, rowScore]
  · intro t u s hs
    simp [processRow, rowScore, hs]
  · intro r hr
    obtain ⟨a, sib, sc⟩ := r
    rcases hr with h | h
    · simp at h
      subst h
      rfl
    · simp at h
      subst h
      cases a <;> rfl

/-- C2 witness: an unparseable score text yields score 0 and a row with a
failed anchor lookup is skipped. -/
theorem hn_rows_policy_witness :
    processRow ⟨some ("A", "u"), true, some "junk"⟩ = some ⟨"A", 0, "u"⟩ ∧
    processRow ⟨none, true, none⟩ = none :=
  ⟨hn_rows_policy.2.2.1 "A" "u" "junk" (by decide),
   hn_rows_policy.2.2.2 ⟨none, true, none⟩ (Or.inl rfl)⟩

/-- C3 (code evaluated at the failing input): with one reachable, empty
catalogue page and target 1, the run does not terminate at the empty page;
it advances to page 2, attempts to fetch it three times (page 2 does not
exist), and ends in the aborted state — contradicting termination in the
success state with no further page fetch. -/
theorem books_empty_page_fetches_next :
    scrape_books [⟨0, []⟩] [] true 1 20 3 =
      Except.ok ⟨[], BooksExit.aborted, [],
        [Ev.fetchPage 1, Ev.fetchPage 2, Ev.sleep, Ev.fetchPage 2, Ev.sleep,
          Ev.fetchPage 2, Ev.sleep]⟩ := rfl

/-- C4 counterexample: a run whose navigation exhausts all retries releases
the session twice — once explicitly before the early return and once in the
finally block — not exactly once. -/
theorem hn_quit_twice_cex :
    quitCount (scrape_hacker_news
        ⟨0, 3, fun _ => RowsAttempt.found [], true⟩ none).trace = 2 ∧
    ¬ quitCount (scrape_hacker_news
        ⟨0, 3, fun _ => RowsAttempt.found [], true⟩ none).trace = 1 :=
  ⟨rfl, by decide⟩

/-- C4 (amended): whenever a session is acquired it is released at least
once before the function returns: exactly once on a fully successful run
(only the finally block quits), and exactly twice on a run where navigation
exhausts all retries (the explicit quit before the early return plus the
finally block). -/
theorem hn_quit_policy (s n : Nat) (f : Nat → RowsAttempt) (rows : List HNRow)
    (w : Bool) (prev : Option (List HNRecord)) (hs : s < MAX_RETRIES) :
    (n < MAX_RETRIES → f 0 = RowsAttempt.found rows → rows ≠ [] →
      quitCount (scrape_hacker_news ⟨s, n, f, w⟩ prev).trace = 1) ∧
    (MAX_RETRIES ≤ n →
      quitCount (scrape_hacker_news ⟨s, n, f, w⟩ prev).trace = 2) := by
  obtain ⟨hs1, hs2⟩ := startDriver_success s hs
  constructor
  · intro hn h0 hr
    obtain ⟨hn1, hn2⟩ := navLoop_success n hn
    have hfr := findRowsLoop_first f rows h0 hr
    cases hsd : startDriver s MAX_RETRIES with
    | mk b1 t1 =>
      cases hnd : navLoop n MAX_RETRIES with
      | mk b2 t2 =>
        rw [hsd] at hs1 hs2
        rw [hnd] at hn1 hn2
        simp at hs1 hn1
        subst hs1
        subst hn1
        simp [quitCount] at hs2 hn2
        simp [scrape_hacker_news, hsd, hnd, hfr, quitCount, List.count_append,
          List.count_cons, hs2, hn2]
  · intro hn
    have hnd := navLoop_exhaust n hn
    cases hsd : startDriver s MAX_RETRIES with
    | mk b1 t1 =>
      rw [hsd] at hs1 hs2
      simp at hs1
      subst hs1
      simp [quitCount] at hs2
      simp [scrape_hacker_news, hsd, hnd, quitCount, List.count_append,
        List.count_cons, hs2]

/-- C4 witness: a fully successful run quits once; a navigation-exhausted
run quits twice. -/
theorem hn_quit_policy_witness :
    quitCount (scrape_hacker_news
        ⟨0, 0, fun _ => RowsAttempt.found [⟨some ("A", "u"), true, none⟩], true⟩
        none).trace = 1 ∧
    quitCount (scrape_hacker_news
        ⟨0, 4, fun _ => RowsAttempt.found [⟨some ("A", "u"), true, none⟩], true⟩
        none).trace = 2 :=
  ⟨(hn_quit_policy 0 0 (fun _ => RowsAttempt.found [⟨some ("A", "u"), true, none⟩])
      [⟨some ("A", "u"), true, none⟩] true none (by decide)).1
      (by decide) rfl (by decide),
   (hn_quit_policy 0 4 (fun _ => RowsAttempt.found [⟨some ("A", "u"), true, none⟩])
      [⟨some ("A", "u"), true, none⟩] true none (by decide)).2 (by decide)⟩

/-- C5: an item whose category fetch exhausts all max_retries attempts is
skipped — it contributes no record and leaves the collected count
unchanged — and consequently every record a run persists carries a category
string (its Categoría is never null). -/
theorem books_category_drop_policy :
    (∀ (nb : Nat) (lim : Rat) (mr : Nat) (it : BookItem) (rest : List BookItem)
        (count : Nat) (price : Rat),
      parsePrice it.priceStr = some price → price < lim → mr ≤ it.catFailures →
      processBooks nb lim mr (it :: rest) count =
        (match processBooks nb lim mr rest count with
         | Except.error e => Except.error e
         | Except.ok out =>
           Except.ok ⟨out.recs, out.count, catFailTrace mr ++ out.trace, out.reached⟩)) ∧
    (∀ (pages : List PageSpec) (prevFile : List BookRecord) (nb : Nat) (lim : Rat)
        (mr : Nat) (res : BooksResult),
      scrape_books pages prevFile true nb lim mr = Except.ok res →
      ∀ r ∈ res.file, r.categoria.isSome = true) := by
  constructor
  · intro nb lim mr it rest count price hp hlt hcf
    have hcl := catLoop_exhaust it.category mr it.catFailures hcf
    simp [processBooks, hp, hlt, hcl]
  · intro pages prevFile nb lim mr res h r hr
    cases hbl : booksLoop nb lim mr pages 1 0 with
    | error e => simp [scrape_books, hbl] at h
    | ok out =>
      simp [scrape_books, hbl] at h
      subst h
      simp at hr
      exact booksLoop_categoria nb lim mr pages 1 0 out hbl r hr

/-- C5 witness: an item with three category failures under max_retries 3 is
dropped, and an aborted run persists only records with categories. -/
theorem books_category_drop_policy_witness :
    processBooks 1 20 3 [⟨"T", "£5", "i", "b", 3, "C"⟩] 0 =
      (match processBooks 1 20 3 ([] : List BookItem) 0 with
       | Except.error e => Except.error e
       | Except.ok out =>
         Except.ok ⟨out.recs, out.count, catFailTrace 3 ++ out.trace, out.reached⟩) ∧
    (∀ r ∈ (⟨[], BooksExit.aborted, [], attemptFailTrace 1 3⟩ : BooksResult).file,
      r.categoria.isSome = true) := by
  constructor
  · exact books_category_drop_policy.1 1 20 3 ⟨"T", "£5", "i", "b", 3, "C"⟩ [] 0 5
      (by decide) (by decide) (by decide)
  · exact books_category_drop_policy.2 [⟨3, []⟩] [] 1 20 3
      ⟨[], BooksExit.aborted, [], attemptFailTrace 1 3⟩ rfl

/-- C6 counterexample: a page whose single item carries an unparseable price
string makes scrape_books propagate an uncaught ValueError past the
pipeline boundary. -/
theorem books_uncaught_valueerror_cex :
    scrape_books [⟨0, [⟨"B", "not-a-price", "i.jpg", "b.html", 0, "Cat"⟩]⟩]
        [] true 50 20 3 = Except.error PErr.valueError := rfl

/-- C6 (amended): scrape_books propagates no exception for any pattern of
transport failures (failed page fetches, failed category fetches) or
persistence failures, provided every price string encountered parses; an
unparseable price raises a ValueError that escapes the pipeline.  The
listing pipeline never propagates: its catch-all handler makes
scrape_hacker_news total. -/
theorem books_ok_when_prices_parse (pages : List PageSpec)
    (prevFile : List BookRecord) (writeOk : Bool) (nb : Nat) (lim : Rat)
    (mr : Nat)
    (hp : ∀ p ∈ pages, ∀ it ∈ p.items, (parsePrice it.priceStr).isSome = true) :
    ∃ res, scrape_books pages prevFile writeOk nb lim mr = Except.ok res := by
  obtain ⟨out, hout⟩ := booksLoop_ok nb lim mr pages 1 0 hp
  exact ⟨⟨out.recs, out.exit, if writeOk then out.recs else prevFile, out.trace⟩,
    by simp [scrape_books, hout]⟩

/-- C6 witness: a run over a page with unreachable detail fetches and a
failing write still returns without an exception. -/
theorem books_ok_when_prices_parse_witness :
    ∃ res, scrape_books [⟨2, [⟨"T", "£5", "i", "b", 9, "C"⟩]⟩] [] false 1 20 3 =
      Except.ok res :=
  books_ok_when_prices_parse [⟨2, [⟨"T", "£5", "i", "b", 9, "C"⟩]⟩] [] false
    1 20 3 (by decide)

/-- C7 counterexample: the WebDriver-start loop with all three attempts
failing sleeps only twice — there is no delay after the final failed
attempt, contradicting the claim that the delay follows every failed
attempt including the last. -/
theorem retry_final_delay_cex :
    (scrape_hacker_news ⟨3, 0, fun _ => RowsAttempt.found [], true⟩ none).trace =
      [HEv.startAttempt, HEv.sleep, HEv.startAttempt, HEv.sleep, HEv.startAttempt] ∧
    (scrape_hacker_news ⟨3, 0, fun _ => RowsAttempt.found [], true⟩
        none).trace.count HEv.sleep = 2 ∧
    (scrape_hacker_news ⟨3, 0, fun _ => RowsAttempt.found [], true⟩
        none).trace.count HEv.startAttempt = 3 ∧
    ¬ (scrape_hacker_news ⟨3, 0, fun _ => RowsAttempt.found [], true⟩
        none).trace.count HEv.sleep = 3 :=
  ⟨rfl, rfl, rfl, by decide⟩

/-- C7 (amended): in scrape_books both retry loops (page fetch and category
fetch) sleep after every failed attempt, the final one included; in
scrape_hacker_news the session-start and navigation loops, and the
row-location loop on its exception path, sleep only after non-final failed
attempts (MAX_RETRIES - 1 sleeps on exhaustion), while the row-location
loop on its empty-result path sleeps after every failed attempt, the final
one included (MAX_RETRIES sleeps on exhaustion). -/
theorem retry_delay_policy :
    (∀ (f : Nat) (c : String) (mr : Nat), mr ≤ f →
      ((catLoop f c mr).2.2).count Ev.sleep = mr) ∧
    (∀ (f : Nat) (c : String) (mr : Nat), f < mr →
      ((catLoop f c mr).2.2).count Ev.sleep = f) ∧
    (∀ (nb : Nat) (lim : Rat) (mr f : Nat) (items : List BookItem)
        (pageNum count : Nat), mr ≤ f →
      pageLoop nb lim mr f items pageNum count mr =
        Except.ok (PageStep.exhausted, attemptFailTrace pageNum mr) ∧
      (attemptFailTrace pageNum mr).count Ev.sleep = mr) ∧
    (∀ s, MAX_RETRIES ≤ s →
      ((startDriver s MAX_RETRIES).2).count HEv.sleep = MAX_RETRIES - 1) ∧
    (∀ n, MAX_RETRIES ≤ n →
      ((navLoop n MAX_RETRIES).2).count HEv.sleep = MAX_RETRIES - 1) ∧
    ((findRowsLoop [RowsAttempt.found [], RowsAttempt.found [],
        RowsAttempt.found []]).2).count HEv.sleep = MAX_RETRIES ∧
    ((findRowsLoop [RowsAttempt.raised, RowsAttempt.raised,
        RowsAttempt.raised]).2).count HEv.sleep = MAX_RETRIES - 1 := by
  refine ⟨?_, ?_, ?_, ?_, ?_, rfl, rfl⟩
  · intro f c mr h
    simp [catLoop_exhaust c mr f h, count_sleep_catFailTrace]
  · intro f c mr h
    simp [catLoop_success c mr f h, catSuccTrace, List.count_append,
      count_sleep_catFailTrace, List.count_cons]
  · intro nb lim mr f items pageNum count h
    exact ⟨pageLoop_exhaust nb lim mr items pageNum count mr f h,
      count_sleep_attemptFailTrace pageNum mr⟩
  · intro s h
    simp [startDriver_exhaust s h]
    rfl
  · intro n h
    simp [navLoop_exhaust n h]
    rfl

/-- C7 witness: concrete exhaustion runs of the category loop, the page
loop, the start loop and the navigation loop. -/
theorem retry_delay_policy_witness :
    ((catLoop 3 "C" 3).2.2).count Ev.sleep = 3 ∧
    ((catLoop 1 "C" 3).2.2).count Ev.sleep = 1 ∧
    (pageLoop 1 20 3 4 [] 1 0 3 =
      Except.ok (PageStep.exhausted, attemptFailTrace 1 3) ∧
      (attemptFailTrace 1 3).count Ev.sleep = 3) ∧
    ((startDriver 4 MAX_RETRIES).2).count HEv.sleep = MAX_RETRIES - 1 ∧
    ((navLoop 3 MAX_RETRIES).2).count HEv.sleep = MAX_RETRIES - 1 :=
  ⟨retry_delay_policy.1 3 "C" 3 (by decide),
   retry_delay_policy.2.1 1 "C" 3 (by decide),
   retry_delay_policy.2.2.1 1 20 3 4 [] 1 0 (by decide),
   retry_delay_policy.2.2.2.1 4 (by decide),
   retry_delay_policy.2.2.2.2.1 3 (by decide)⟩

/-- C8: when the final write of the output file fails, scrape_hacker_news
logs and does not raise, the file keeps its prior content, and the function
still returns the full in-memory sequence of extracted records — identical
to what a successful write of the same run would have serialized. -/
theorem hn_write_failure_returns (s n : Nat) (f : Nat → RowsAttempt)
    (rows : List HNRow) (prev : Option (List HNRecord))
    (hs : s < MAX_RETRIES) (hn : n < MAX_RETRIES)
    (h0 : f 0 = RowsAttempt.found rows) (hr : rows ≠ []) :
    (scrape_hacker_news ⟨s, n, f, false⟩ prev).returned = processRows rows ∧
    (scrape_hacker_news ⟨s, n, f, false⟩ prev).file = prev ∧
    (scrape_hacker_news ⟨s, n, f, true⟩ prev).file = some (processRows rows) ∧
    (scrape_hacker_news ⟨s, n, f, false⟩ prev).returned =
      (scrape_hacker_news ⟨s, n, f, true⟩ prev).returned := by
  obtain ⟨hs1, _⟩ := startDriver_success s hs
  obtain ⟨hn1, _⟩ := navLoop_success n hn
  have hfr := findRowsLoop_first f rows h0 hr
  cases hsd : startDriver s MAX_RETRIES with
  | mk b1 t1 =>
    cases hnd : navLoop n MAX_RETRIES with
    | mk b2 t2 =>
      rw [hsd] at hs1
      rw [hnd] at hn1
      simp at hs1 hn1
      subst hs1
      subst hn1
      refine ⟨?_, ?_, ?_, ?_⟩ <;> simp [scrape_hacker_news, hsd, hnd, hfr]

/-- C8 witness: a concrete run with a failing write still returns its one
extracted record. -/
theorem hn_write_failure_returns_witness :
    (scrape_hacker_news
        ⟨0, 0, fun _ => RowsAttempt.found [⟨some ("A", "u"), true, some "7 points"⟩], false⟩
        (some [])).returned =
      processRows [⟨some ("A", "u"), true, some "7 points"⟩] ∧
    (scrape_hacker_news
        ⟨0, 0, fun _ => RowsAttempt.found [⟨some ("A", "u"), true, some "7 points"⟩], false⟩
        (some [])).file = some [] ∧
    (scrape_hacker_news
        ⟨0, 0, fun _ => RowsAttempt.found [⟨some ("A", "u"), true, some "7 points"⟩], true⟩
        (some [])).file =
      some (processRows [⟨some ("A", "u"), true, some "7 points"⟩]) ∧
    (scrape_hacker_news
        ⟨0, 0, fun _ => RowsAttempt.found [⟨some ("A", "u"), true, some "7 points"⟩], false⟩
        (some [])).returned =
      (scrape_hacker_news
        ⟨0, 0, fun _ => RowsAttempt.found [⟨some ("A", "u"), true, some "7 points"⟩], true⟩
        (some [])).returned :=
  hn_write_failure_returns 0 0
    (fun _ => RowsAttempt.found [⟨some ("A", "u"), true, some "7 points"⟩])
    [⟨some ("A", "u"), true, some "7 points"⟩] (some [])
    (by decide) (by decide) rfl (by decide)

/-- C9: serializing a collected sequence to the output file and
deserializing it reproduces the in-memory sequence element for element, and
the serialized field names are exactly Título, Precio, Categoría and
"URL de la imagen" (embedded spaces included) for the catalogue, and title,
score, url for the listing. -/
theorem json_round_trip_exact_keys :
    (∀ l : List BookRecord, jsonToBooks (booksToJson l) = some l) ∧
    (∀ l : List HNRecord, jsonToHNs (hnListToJson l) = some l) ∧
    (∀ r : BookRecord, objKeys (bookToJson r) =
      ["Título", "Precio", "Categoría", "URL de la imagen"]) ∧
    (∀ r : HNRecord, objKeys (hnToJson r) = ["title", "score", "url"]) := by
  refine ⟨?_, ?_, fun r => rfl, fun r => rfl⟩
  · intro l
    simp [jsonToBooks, booksToJson, jsonToBookList_map]
  · intro l
    simp [jsonToHNs, hnListToJson, jsonToHNList_map]

/-- C10: a run that reaches the persistence step replaces books.json with
exactly the records collected in that run — the result does not depend on
the prior file content — and a run whose very first page fetch exhausts all
retries persists an empty array over whatever was there before. -/
theorem books_overwrite_policy :
    (∀ (pages : List PageSpec) (prevFile : List BookRecord) (nb : Nat)
        (lim : Rat) (mr : Nat) (res : BooksResult),
      scrape_books pages prevFile true nb lim mr = Except.ok res →
      res.file = res.records) ∧
    (∀ (pages : List PageSpec) (prev1 prev2 : List BookRecord) (nb : Nat)
        (lim : Rat) (mr : Nat),
      scrape_books pages prev1 true nb lim mr =
        scrape_books pages prev2 true nb lim mr) ∧
    (∀ (f1 : Nat) (its : List BookItem) (rest : List PageSpec)
        (prevFile : List BookRecord) (nb : Nat) (lim : Rat) (mr : Nat),
      mr ≤ f1 → 0 < nb →
      scrape_books (⟨f1, its⟩ :: rest) prevFile true nb lim mr =
        Except.ok ⟨[], BooksExit.aborted, [], attemptFailTrace 1 mr⟩) := by
  refine ⟨?_, ?_, ?_⟩
  · intro pages prevFile nb lim mr res h
    cases hbl : booksLoop nb lim mr pages 1 0 with
    | error e => simp [scrape_books, hbl] at h
    | ok out =>
      simp [scrape_books, hbl] at h
      subst h
      rfl
  · intro pages p1 p2 nb lim mr
    cases hbl : booksLoop nb lim mr pages 1 0 <;> simp [scrape_books, hbl]
  · intro f1 its rest prevFile nb lim mr hf hnb
    have hc : ¬ nb ≤ 0 := by omega
    have hpl := pageLoop_exhaust nb lim mr its 1 0 mr f1 hf
    simp [scrape_books, booksLoop, hc, hpl]

/-- C10 witness: a run whose first page exhausts its three fetch attempts
overwrites a nonempty prior file with the empty array. -/
theorem books_overwrite_policy_witness :
    scrape_books [⟨3, []⟩] [⟨"old", 1, some "X", "u"⟩] true 1 20 3 =
      Except.ok ⟨[], BooksExit.aborted, [], attemptFailTrace 1 3⟩ ∧
    (⟨[], BooksExit.aborted, [], attemptFailTrace 1 3⟩ : BooksResult).file =
      (⟨[], BooksExit.aborted, [], attemptFailTrace 1 3⟩ : BooksResult).records := by
  have h := books_overwrite_policy.2.2 3 [] [] [⟨"old", 1, some "X", "u"⟩]
    1 20 3 (by decide) (by decide)
  exact ⟨h, books_overwrite_policy.1 [⟨3, []⟩] [⟨"old", 1, some "X", "u"⟩]
    1 20 3 ⟨[], BooksExit.aborted, [], attemptFailTrace 1 3⟩ h⟩

end Scrape
